import Mathlib

/-!
Shallow embedding of the `stylus-permit` ERC-20 + permit contract
(`src/erc20permit.rs`, adapter `src/ecrecover.rs`).

Modelling conventions:
* `U256` values are `Nat`s; every stored slot holds a value `< 2^256`.
  Arithmetic that the Rust source performs with `alloy_primitives::U256`
  operators (`+`, `-`) is modelled as wrapping arithmetic modulo `2^256`,
  the semantics of the deployed (release-profile) contract.
  `saturating_add` clamps at `2^256 - 1`; `saturating_sub` clamps at `0`
  (which is exactly `Nat` subtraction).
* Solidity storage mappings (`mapping(address => uint256)`) are modelled as
  association lists with default value `0` for absent keys, mirroring the
  lazily-created storage slots.
* Addresses are `Nat`s; the zero address is `0`.
* The EIP-712 signing hash and the external signature-recovery precompile
  are out-of-repository facilities; they enter the model as abstract
  function parameters (`SigEnv`).
-/

namespace StylusPermit

/-- Modulus of unsigned 256-bit arithmetic. -/
def U256MOD : Nat := 2 ^ 256

/-- Largest unsigned 256-bit value, `U256::MAX`. -/
def U256MAX : Nat := 2 ^ 256 - 1

/-- Wrapping 256-bit addition, the release-profile semantics of `U256::add`. -/
def uadd (a b : Nat) : Nat := (a + b) % U256MOD

/-- Wrapping 256-bit subtraction (both operands assumed `< 2^256`). -/
def usub (a b : Nat) : Nat := (a + U256MOD - b) % U256MOD

/-- Saturating 256-bit addition, `U256::saturating_add`. -/
def satAdd (a b : Nat) : Nat := min (a + b) U256MAX

/-- Storage mapping `address => uint256`: association list, absent key reads 0. -/
def mget : List (Nat × Nat) → Nat → Nat
  | [], _ => 0
  | (k, v) :: rest, a => if k = a then v else mget rest a

/-- Write to a storage mapping: replace the first binding of the key, else append. -/
def mset : List (Nat × Nat) → Nat → Nat → List (Nat × Nat)
  | [], k, v => [(k, v)]
  | (k', v') :: rest, k, v =>
      if k' = k then (k, v) :: rest else (k', v') :: mset rest k v

/-- Sum of every stored balance slot (the mathematical `Σ balances`). -/
def msum (m : List (Nat × Nat)) : Nat := (m.map Prod.snd).sum

/-- Nested mapping `address => (address => uint256)`: read one row (default empty). -/
def m2get : List (Nat × List (Nat × Nat)) → Nat → Nat → Nat
  | [], _, _ => 0
  | (k, row) :: rest, o, sp => if k = o then mget row sp else m2get rest o sp

/-- Write one slot of a nested mapping, `allowances.setter(o).setter(sp).set(v)`. -/
def m2set : List (Nat × List (Nat × Nat)) → Nat → Nat → Nat → List (Nat × List (Nat × Nat))
  | [], o, sp, v => [(o, mset [] sp v)]
  | (k, row) :: rest, o, sp, v =>
      if k = o then (k, mset row sp v) :: rest else (k, row) :: m2set rest o sp v

/-- Error enum of the `sol!` contract block in `erc20permit.rs`. -/
inductive Erc20Errors where
  | PermitExpired
  | InvalidPermit
  | InsufficientBalance
  | InsufficientAllowance
deriving DecidableEq, Repr

/-- Storage of `Erc20Permit` (`sol_storage!` block): balances, total supply,
allowances, nonces. The two `PhantomData` fields hold no state. -/
structure Erc20State where
  balances : List (Nat × Nat)
  total_supply : Nat
  allowances : List (Nat × List (Nat × Nat))
  nonces : List (Nat × Nat)
deriving DecidableEq, Repr

/-- The all-zero initial storage of a freshly deployed contract. -/
def initState : Erc20State :=
  { balances := [], total_supply := 0, allowances := [], nonces := [] }

/-- Per-call host context: `msg::sender()` and `block::timestamp()`. -/
structure Env where
  sender : Nat
  timestamp : Nat

/-- The EIP-712 `Permit` struct hashed for signing. -/
structure PermitMsg where
  owner : Nat
  spender : Nat
  value : Nat
  nonce : Nat
  deadline : Nat
deriving DecidableEq, Repr

/-- Modelled from the spec: the EIP-712 typed-data hash construction
(domain separator with live chain id / contract address folded in) and the
external signature-recovery facility of §4.3–§4.4 are outside this
repository; they are abstracted as a hash function on the `Permit` struct
and a recovery oracle. `recover h v r s = none` models the adapter's
`Err` outcome (the external call failed); `some a` models a successfully
recovered address. -/
structure SigEnv where
  sigHash : PermitMsg → Nat
  recover : Nat → Nat → Nat → Nat → Option Nat

/-- Rust `saturating_debit`: clamp the subtraction at zero, return the new
state and the amount actually debited. The source wraps the result in an
always-`Ok` `Erc20Result`. -/
def saturating_debit (s : Erc20State) (addr amount : Nat) : Erc20State × Nat :=
  let bal := mget s.balances addr
  let new_bal := bal - amount
  let burned := bal - new_bal
  ({ s with balances := mset s.balances addr new_bal }, burned)

/-- Rust `debit`: fail with `InsufficientBalance` if the balance is short,
otherwise subtract exactly `amount`. -/
def debit (s : Erc20State) (addr amount : Nat) : Except Erc20Errors Erc20State :=
  let bal := mget s.balances addr
  if bal < amount then .error .InsufficientBalance
  else .ok { s with balances := mset s.balances addr (bal - amount) }

/-- Rust `saturating_credit`: clamp the addition at `U256::MAX`, return the
new state and the amount actually credited. Always `Ok` in the source. -/
def saturating_credit (s : Erc20State) (addr amount : Nat) : Erc20State × Nat :=
  let bal := mget s.balances addr
  let new_bal := satAdd bal amount
  let minted := new_bal - bal
  ({ s with balances := mset s.balances addr new_bal }, minted)

/-- Rust `credit`: unchecked `bal + amount` (wrapping in the deployed
profile). Always `Ok` in the source. -/
def credit (s : Erc20State) (addr amount : Nat) : Erc20State :=
  let bal := mget s.balances addr
  { s with balances := mset s.balances addr (uadd bal amount) }

/-- Rust `move_tokens`: `debit(from)?` then `credit(to)`. -/
def move_tokens (s : Erc20State) (frm toA amount : Nat) : Except Erc20Errors Erc20State :=
  match debit s frm amount with
  | .error e => .error e
  | .ok s1 => .ok (credit s1 toA amount)

/-- Rust `set_approval`: unconditional overwrite of the allowance slot. -/
def set_approval (s : Erc20State) (owner spender amount : Nat) : Erc20State :=
  { s with allowances := m2set s.allowances owner spender amount }

/-- Rust `increment_nonce`: `nonce.set(next + 1)` (wrapping add). -/
def increment_nonce (s : Erc20State) (owner : Nat) : Erc20State :=
  let next := mget s.nonces owner
  { s with nonces := mset s.nonces owner (uadd next 1) }

/-- Rust `_mint`: saturating-credit `to`, then `total_supply.set(total + amount)`.
Note the source discards the amount-actually-minted value returned by
`saturating_credit` and adds the REQUESTED `amount` to the total supply. -/
def _mint (s : Erc20State) (toA amount : Nat) : Erc20State :=
  let total := s.total_supply
  let s1 := (saturating_credit s toA amount).1
  { s1 with total_supply := uadd total amount }

/-- Rust `_burn`: saturating-debit `from`, then subtract the amount actually
burned from the total supply. -/
def _burn (s : Erc20State) (frm amount : Nat) : Erc20State :=
  let total := s.total_supply
  let p := saturating_debit s frm amount
  { p.1 with total_supply := usub total p.2 }

/-- Rust `_total_supply`. -/
def _total_supply (s : Erc20State) : Nat := s.total_supply

/-- Rust `_balance_of`. -/
def _balance_of (s : Erc20State) (owner : Nat) : Nat := mget s.balances owner

/-- Rust `_transfer`: `move_tokens(msg::sender(), to, amount)?; Ok(true)`. -/
def _transfer (env : Env) (s : Erc20State) (toA amount : Nat) :
    Except Erc20Errors (Erc20State × Bool) :=
  match move_tokens s env.sender toA amount with
  | .error e => .error e
  | .ok s1 => .ok (s1, true)

/-- Rust `_allowance`. -/
def _allowance (s : Erc20State) (owner spender : Nat) : Nat :=
  m2get s.allowances owner spender

/-- Rust `_approve`: `set_approval(msg::sender(), spender, amount)` then
`Ok(true)` (never fails). -/
def _approve (env : Env) (s : Erc20State) (spender amount : Nat) :
    Erc20State × Bool :=
  (set_approval s env.sender spender amount, true)

/-- Rust `_transfer_from`: allowance check, allowance decrement, then
`move_tokens(from, to, amount)`. -/
def _transfer_from (env : Env) (s : Erc20State) (frm toA amount : Nat) :
    Except Erc20Errors (Erc20State × Bool) :=
  let spender := env.sender
  let allowance := _allowance s frm spender
  if allowance < amount then .error .InsufficientAllowance
  else
    let s1 := set_approval s frm spender (allowance - amount)
    match move_tokens s1 frm toA amount with
    | .error e => .error e
    | .ok s2 => .ok (s2, true)

/-- Rust `_permit`: zero-owner check, deadline check, EIP-712 hash over the
pre-call nonce, signature recovery, signer comparison, then approval write
and nonce increment. -/
def _permit (env : Env) (sig : SigEnv) (s : Erc20State)
    (owner spender value deadline v r sv : Nat) : Except Erc20Errors Erc20State :=
  if owner = 0 then .error .InvalidPermit
  else if env.timestamp > deadline then .error .PermitExpired
  else
    let permitMsg : PermitMsg :=
      { owner := owner, spender := spender, value := value,
        nonce := mget s.nonces owner, deadline := deadline }
    let permit_hash := sig.sigHash permitMsg
    match sig.recover permit_hash v r sv with
    | none => .error .InvalidPermit
    | some recovered =>
        if recovered ≠ owner then .error .InvalidPermit
        else .ok (increment_nonce (set_approval s owner spender value) owner)

/-- Rust `_transfer_with_permit`: `_permit(...)?` then
`_transfer_from(owner, to, amount)`. -/
def _transfer_with_permit (env : Env) (sig : SigEnv) (s : Erc20State)
    (toA amount owner spender value deadline v r sv : Nat) :
    Except Erc20Errors (Erc20State × Bool) :=
  match _permit env sig s owner spender value deadline v r sv with
  | .error e => .error e
  | .ok s1 => _transfer_from env s1 owner toA amount

/-- Modelled from the spec: the host execution environment's all-or-nothing
call semantics (§5). An `#[external]` method that returns an error makes the
host discard every storage write of the call, so the observable post-state
is the pre-call state; on success the written state persists. -/
def hostCall (s : Erc20State) (r : Except Erc20Errors (Erc20State × Bool)) :
    Erc20State × Except Erc20Errors Bool :=
  match r with
  | .error e => (s, .error e)
  | .ok (s1, b) => (s1, .ok b)

/-- Outward `transfer` entry point (post-state plus result). -/
def transfer (env : Env) (s : Erc20State) (toA amount : Nat) :
    Erc20State × Except Erc20Errors Bool :=
  hostCall s (_transfer env s toA amount)

/-- Outward `approve` entry point (infallible). -/
def approve (env : Env) (s : Erc20State) (spender amount : Nat) :
    Erc20State × Except Erc20Errors Bool :=
  hostCall s (.ok (_approve env s spender amount))

/-- Outward `transferFrom` entry point. -/
def transfer_from (env : Env) (s : Erc20State) (frm toA amount : Nat) :
    Erc20State × Except Erc20Errors Bool :=
  hostCall s (_transfer_from env s frm toA amount)

/-- Outward `permit` entry point (unit result). -/
def permit (env : Env) (sig : SigEnv) (s : Erc20State)
    (owner spender value deadline v r sv : Nat) :
    Erc20State × Except Erc20Errors Unit :=
  match _permit env sig s owner spender value deadline v r sv with
  | .error e => (s, .error e)
  | .ok s1 => (s1, .ok ())

/-- Outward `transferWithPermit` entry point. -/
def transfer_with_permit (env : Env) (sig : SigEnv) (s : Erc20State)
    (toA amount owner spender value deadline v r sv : Nat) :
    Erc20State × Except Erc20Errors Bool :=
  hostCall s (_transfer_with_permit env sig s toA amount owner spender value deadline v r sv)

/-- Mathematical sum of all account balances of a state. -/
def sumBalances (s : Erc20State) : Nat := msum s.balances

/-- One invocation of any state-changing operation of the contract, with its
per-call host context; `mint` and `burn` carry no `Env` (they read no
sender or timestamp). -/
inductive Op where
  | transfer (env : Env) (toA amount : Nat)
  | approve (env : Env) (spender amount : Nat)
  | transferFrom (env : Env) (frm toA amount : Nat)
  | permit (env : Env) (sig : SigEnv) (owner spender value deadline v r sv : Nat)
  | transferWithPermit (env : Env) (sig : SigEnv)
      (toA amount owner spender value deadline v r sv : Nat)
  | mint (toA amount : Nat)
  | burn (frm amount : Nat)

/-- Observable post-state of one operation (errors revert, per `hostCall`). -/
def execOp (s : Erc20State) : Op → Erc20State
  | .transfer env toA amount => (transfer env s toA amount).1
  | .approve env spender amount => (approve env s spender amount).1
  | .transferFrom env frm toA amount => (transfer_from env s frm toA amount).1
  | .permit env sig owner spender value deadline v r sv =>
      (permit env sig s owner spender value deadline v r sv).1
  | .transferWithPermit env sig toA amount owner spender value deadline v r sv =>
      (transfer_with_permit env sig s toA amount owner spender value deadline v r sv).1
  | .mint toA amount => _mint s toA amount
  | .burn frm amount => _burn s frm amount

/-- State reached from the all-zero initial state by a sequence of operations. -/
def execOps (ops : List Op) : Erc20State := ops.foldl execOp initState

/-- A state is reachable when some operation sequence produces it. -/
def Reachable (s : Erc20State) : Prop := ∃ ops, execOps ops = s

/-- Outcome of the Rust `ecrecover` adapter in `src/ecrecover.rs`: the
external static call failed (`callError`), an address was decoded (`ok`),
or `decode_single(..).unwrap()` aborted the process (`crashed`). -/
inductive EcrOutcome where
  | ok (addr : Nat)
  | callError
  | crashed
deriving DecidableEq, Repr

/-- Big-endian byte-string to number conversion used by the ABI decoder. -/
def bytesToNat (bs : List Nat) : Nat := bs.foldl (fun acc b => acc * 256 + b) 0

/-- ABI `decode_single` for a solidity `address` (validate = false): requires
at least one full 32-byte word and takes the low 20 bytes of the first word. -/
def decodeSingleAddress (ret : List Nat) : Option Nat :=
  if 32 ≤ ret.length then some (bytesToNat ((ret.take 32).drop 12)) else none

/-- Rust `ecrecover` applied to the raw response of the external
signature-recovery facility: an `Err` response maps to `callError`; an `Ok`
byte string is passed to `decode_single(..).unwrap()`, which yields the
decoded address or aborts the process when the decode fails. -/
def ecrecover (resp : Except Unit (List Nat)) : EcrOutcome :=
  match resp with
  | .error _ => .callError
  | .ok ret =>
      match decodeSingleAddress ret with
      | some a => .ok a
      | none => .crashed

theorem mget_mset_self (m : List (Nat × Nat)) (k v : Nat) :
    mget (mset m k v) k = v := by
  induction m with
  | nil => simp [mget, mset]
  | cons hd tl ih =>
      obtain ⟨k', v'⟩ := hd
      by_cases h : k' = k
      · simp [mget, mset, h]
      · simp [mget, mset, h, ih]

theorem mget_mset_ne (m : List (Nat × Nat)) {k j : Nat} (v : Nat) (h : k ≠ j) :
    mget (mset m k v) j = mget m j := by
  induction m with
  | nil => simp [mget, mset, h]
  | cons hd tl ih =>
      obtain ⟨k', v'⟩ := hd
      by_cases hk : k' = k
      · subst hk
        simp [mget, mset, h]
      · simp [mget, mset, hk, ih]

theorem m2get_m2set_self (m : List (Nat × List (Nat × Nat))) (o sp v : Nat) :
    m2get (m2set m o sp v) o sp = v := by
  induction m with
  | nil => simp [m2get, m2set, mget_mset_self]
  | cons hd tl ih =>
      obtain ⟨k, row⟩ := hd
      by_cases h : k = o
      · simp [m2get, m2set, h, mget_mset_self]
      · simp [m2get, m2set, h, ih]

theorem m2get_m2set_ne (m : List (Nat × List (Nat × Nat))) {o sp o' sp' : Nat}
    (v : Nat) (h : o ≠ o' ∨ sp ≠ sp') :
    m2get (m2set m o sp v) o' sp' = m2get m o' sp' := by
  induction m with
  | nil =>
      by_cases ho : o = o'
      · rcases h with h | h
        · exact absurd ho h
        · simp [m2get, m2set, mset, ho, mget, h]
      · simp [m2get, m2set, ho]
  | cons hd tl ih =>
      obtain ⟨k, row⟩ := hd
      by_cases hk : k = o
      · rcases h with h | h
        · simp [m2get, m2set, hk, h]
        · by_cases ho : o = o'
          · simp [m2get, m2set, hk, ho, mget_mset_ne _ _ h]
          · simp [m2get, m2set, hk, ho]
      · simp [m2get, m2set, hk, ih]

theorem umax_lt_umod : U256MAX < U256MOD := by
  simp only [U256MAX, U256MOD]
  exact Nat.sub_lt (Nat.pos_pow_of_pos 256 (by decide)) (by decide)

theorem uadd_eq_add {a b : Nat} (h : a + b < U256MOD) : uadd a b = a + b :=
  Nat.mod_eq_of_lt h

/-- State produced by a successful `debit` has the same total supply. -/
theorem debit_total_supply {s : Erc20State} {addr amount : Nat} {s1 : Erc20State}
    (h : debit s addr amount = .ok s1) : s1.total_supply = s.total_supply := by
  unfold debit at h
  by_cases hb : mget s.balances addr < amount
  · simp [hb] at h
  · simp [hb] at h
    subst h
    rfl

/-- State produced by a successful `move_tokens` has the same total supply. -/
theorem move_tokens_total_supply {s : Erc20State} {frm toA amount : Nat} {s1 : Erc20State}
    (h : move_tokens s frm toA amount = .ok s1) : s1.total_supply = s.total_supply := by
  unfold move_tokens at h
  cases hd : debit s frm amount with
  | error e => rw [hd] at h; cases h
  | ok sd =>
      rw [hd] at h
      cases h
      simpa [credit] using debit_total_supply hd

/-- Shape of a successful `_permit`: the post-state is the nonce increment of
the approval write, and recovery returned exactly the claimed owner on the
hash built over the pre-call nonce. -/
theorem permit_ok_shape {env : Env} {sig : SigEnv} {s : Erc20State}
    {owner spender value deadline v r sv : Nat} {s1 : Erc20State}
    (h : _permit env sig s owner spender value deadline v r sv = .ok s1) :
    s1 = increment_nonce (set_approval s owner spender value) owner ∧
      sig.recover (sig.sigHash
        { owner := owner, spender := spender, value := value,
          nonce := mget s.nonces owner, deadline := deadline }) v r sv = some owner := by
  unfold _permit at h
  by_cases h0 : owner = 0
  · simp [h0] at h
  · simp only [h0, if_false] at h
    by_cases hd : env.timestamp > deadline
    · simp [hd] at h
    · simp only [hd, if_false] at h
      cases hrec : sig.recover (sig.sigHash
          { owner := owner, spender := spender, value := value,
            nonce := mget s.nonces owner, deadline := deadline }) v r sv with
      | none => rw [hrec] at h; cases h
      | some a =>
          rw [hrec] at h
          by_cases ha : a = owner
          · simp [ha] at h
            exact ⟨h.symm, by rw [ha]⟩
          · simp [ha] at h

/-- Successful `_transfer_from` returns `true` and its post-state. -/
theorem transfer_from_ok_shape {env : Env} {s : Erc20State} {frm toA amount : Nat}
    {s2 : Erc20State} {b : Bool}
    (h : _transfer_from env s frm toA amount = .ok (s2, b)) : b = true := by
  unfold _transfer_from at h
  by_cases ha : _allowance s frm env.sender < amount
  · simp [ha] at h
  · simp only [ha, if_false] at h
    cases hm : move_tokens (set_approval s frm env.sender (_allowance s frm env.sender - amount))
        frm toA amount with
    | error e => rw [hm] at h; cases h
    | ok s' => rw [hm] at h; cases h; rfl

/-- C1: the sum invariant `total_supply = Σ balances` fails on a reachable
state. After `mint(1, U256MAX)` the state has balance 2^256 - 1 and matching
total supply; a further `mint(1, 1)` leaves the saturated balance unchanged
but wraps the stored total supply to 0, so the reachable two-mint state has
total supply 0 while the balances sum to 2^256 - 1. -/
theorem c1_reachable_state_breaks_sum_invariant :
    Reachable (execOps [Op.mint 1 U256MAX, Op.mint 1 1]) ∧
      (execOps [Op.mint 1 U256MAX, Op.mint 1 1]).total_supply = 0 ∧
      sumBalances (execOps [Op.mint 1 U256MAX, Op.mint 1 1]) = U256MAX :=
  ⟨⟨[Op.mint 1 U256MAX, Op.mint 1 1], rfl⟩, rfl, rfl⟩

/-- C2: `_mint` discards the amount actually credited. With the recipient's
balance already at `U256::MAX`, `mint(to, 1)` credits 0 and leaves the
balance unchanged, yet the stored total supply is set to
`(U256MAX + 1) % 2^256 = 0` instead of staying at `U256MAX`. -/
theorem c2_mint_at_ceiling_changes_total_supply :
    (saturating_credit (_mint initState 1 U256MAX) 1 1).2 = 0 ∧
      mget (_mint (_mint initState 1 U256MAX) 1 1).balances 1
        = mget (_mint initState 1 U256MAX).balances 1 ∧
      (_mint initState 1 U256MAX).total_supply = U256MAX ∧
      (_mint (_mint initState 1 U256MAX) 1 1).total_supply = 0 :=
  ⟨rfl, rfl, rfl, rfl⟩

/-- C9: the `ecrecover` adapter calls `decode_single(..).unwrap()` on the raw
response of the recovery facility; on an empty (or short) `Ok` response -
the facility's behaviour for a malformed signature - the decode fails and
the `unwrap` aborts the process instead of surfacing `InvalidPermit`. -/
theorem c9_ecrecover_crashes_on_empty_response :
    ecrecover (Except.ok []) = EcrOutcome.crashed := rfl

/-- C3: `transfer(to, amount)` fails with `InsufficientBalance` exactly when
the sender's balance is short, leaving the state unchanged; otherwise it
subtracts `amount` from the sender, adds it to the recipient, and returns
true (for a self-transfer the balance is debited and re-credited, ending
unchanged). The hypothesis bounds the credited slot below `U256::MAX`, the
operating assumption the spec itself states for the unchecked `credit`. -/
theorem c3_transfer_correct (env : Env) (s : Erc20State) (toA amount : Nat)
    (hof : mget s.balances toA + amount ≤ U256MAX) :
    (mget s.balances env.sender < amount →
      transfer env s toA amount = (s, .error .InsufficientBalance)) ∧
    (amount ≤ mget s.balances env.sender →
      (transfer env s toA amount).2 = .ok true ∧
      (env.sender ≠ toA →
        mget (transfer env s toA amount).1.balances env.sender
          = mget s.balances env.sender - amount ∧
        mget (transfer env s toA amount).1.balances toA
          = mget s.balances toA + amount) ∧
      (env.sender = toA →
        mget (transfer env s toA amount).1.balances toA = mget s.balances toA)) := by
  have hmod : mget s.balances toA + amount < U256MOD := lt_of_le_of_lt hof umax_lt_umod
  constructor
  · intro h
    have hred : transfer env s toA amount = (s, .error .InsufficientBalance) := by
      unfold transfer hostCall _transfer move_tokens debit
      rw [if_pos h]
    exact hred
  · intro h
    have hnl : ¬ mget s.balances env.sender < amount := not_lt.mpr h
    set b1 := mset s.balances env.sender (mget s.balances env.sender - amount) with hb1
    set b2 := mset b1 toA (uadd (mget b1 toA) amount) with hb2
    have hred : transfer env s toA amount = ({ s with balances := b2 }, .ok true) := by
      simp [transfer, hostCall, _transfer, move_tokens, debit, credit, hnl, hb1, hb2]
    rw [hred]
    refine ⟨rfl, ?_, ?_⟩
    · intro hne
      constructor
      · show mget b2 env.sender = mget s.balances env.sender - amount
        rw [hb2, mget_mset_ne _ _ (Ne.symm hne), hb1]
        exact mget_mset_self _ _ _
      · show mget b2 toA = mget s.balances toA + amount
        rw [hb2, mget_mset_self, hb1, mget_mset_ne _ _ hne]
        exact uadd_eq_add hmod
    · intro heq
      subst heq
      show mget b2 env.sender = mget s.balances env.sender
      rw [hb2, mget_mset_self, hb1, mget_mset_self, uadd, Nat.sub_add_cancel h]
      exact Nat.mod_eq_of_lt
        (lt_of_le_of_lt (le_trans (Nat.le_add_right _ _) hof) umax_lt_umod)

/-- C3 witness: with `balance(1) = 100`, account 1 calling `transfer(2, 40)`
returns true and leaves `balance(1) = 60`, `balance(2) = 40`. -/
theorem c3_transfer_correct_witness :
    (transfer ⟨1, 0⟩ { initState with balances := [(1, 100)] } 2 40).2 = .ok true ∧
      mget (transfer ⟨1, 0⟩ { initState with balances := [(1, 100)] } 2 40).1.balances 1 = 60 ∧
      mget (transfer ⟨1, 0⟩ { initState with balances := [(1, 100)] } 2 40).1.balances 2 = 40 := by
  have h := (c3_transfer_correct ⟨1, 0⟩ { initState with balances := [(1, 100)] } 2 40
      (by decide)).2 (by decide)
  refine ⟨h.1, ?_, ?_⟩
  · rw [(h.2.1 (by decide)).1]
    decide
  · rw [(h.2.1 (by decide)).2]
    decide

/-- C4 counterexample: with `allowance(1, 2) = 50` and `balance(1) = 0`,
account 2 calling `transferFrom(1, 3, 40)` satisfies the claim's
"otherwise" side condition (`allowance ≥ amount`) yet fails with
`InsufficientBalance` instead of returning true. -/
theorem c4_counterexample :
    40 ≤ _allowance (set_approval initState 1 2 50) 1 2 ∧
      (transfer_from ⟨2, 0⟩ (set_approval initState 1 2 50) 1 3 40).2
        = .error .InsufficientBalance :=
  ⟨by decide, rfl⟩

/-- C4 amended: `transferFrom(from, to, amount)` fails with
`InsufficientAllowance` (state unchanged) when the caller's allowance is
short; with sufficient allowance but `balance(from) < amount` it fails with
`InsufficientBalance` and the host reverts the already-written allowance
decrement, leaving the state unchanged; with both sufficient it sets the
allowance to the old value minus `amount`, moves `amount` from `from` to
`to`, and returns true. -/
theorem c4_transfer_from_amended (env : Env) (s : Erc20State) (frm toA amount : Nat)
    (hof : mget s.balances toA + amount ≤ U256MAX) :
    (_allowance s frm env.sender < amount →
      transfer_from env s frm toA amount = (s, .error .InsufficientAllowance)) ∧
    (amount ≤ _allowance s frm env.sender → mget s.balances frm < amount →
      transfer_from env s frm toA amount = (s, .error .InsufficientBalance)) ∧
    (amount ≤ _allowance s frm env.sender → amount ≤ mget s.balances frm →
      (transfer_from env s frm toA amount).2 = .ok true ∧
      _allowance (transfer_from env s frm toA amount).1 frm env.sender
        = _allowance s frm env.sender - amount ∧
      (frm ≠ toA →
        mget (transfer_from env s frm toA amount).1.balances frm
          = mget s.balances frm - amount ∧
        mget (transfer_from env s frm toA amount).1.balances toA
          = mget s.balances toA + amount) ∧
      (frm = toA →
        mget (transfer_from env s frm toA amount).1.balances toA
          = mget s.balances toA)) := by
  have hmod : mget s.balances toA + amount < U256MOD := lt_of_le_of_lt hof umax_lt_umod
  refine ⟨?_, ?_, ?_⟩
  · intro h
    have hred : transfer_from env s frm toA amount = (s, .error .InsufficientAllowance) := by
      unfold transfer_from hostCall _transfer_from
      rw [if_pos h]
    exact hred
  · intro ha hb
    have hnl : ¬ _allowance s frm env.sender < amount := not_lt.mpr ha
    have hred : transfer_from env s frm toA amount = (s, .error .InsufficientBalance) := by
      simp [transfer_from, hostCall, _transfer_from, move_tokens, debit, set_approval,
        hnl, hb]
    exact hred
  · intro ha hb
    have hnl : ¬ _allowance s frm env.sender < amount := not_lt.mpr ha
    have hnb : ¬ mget s.balances frm < amount := not_lt.mpr hb
    set al1 := m2set s.allowances frm env.sender (_allowance s frm env.sender - amount)
      with hal1
    set b1 := mset s.balances frm (mget s.balances frm - amount) with hb1
    set b2 := mset b1 toA (uadd (mget b1 toA) amount) with hb2
    have hred : transfer_from env s frm toA amount
        = ({ s with allowances := al1, balances := b2 }, .ok true) := by
      simp [transfer_from, hostCall, _transfer_from, move_tokens, debit, credit,
        set_approval, hnl, hnb, hal1, hb1, hb2]
    rw [hred]
    refine ⟨rfl, ?_, ?_, ?_⟩
    · show m2get al1 frm env.sender = _allowance s frm env.sender - amount
      rw [hal1]
      exact m2get_m2set_self _ _ _ _
    · intro hne
      constructor
      · show mget b2 frm = mget s.balances frm - amount
        rw [hb2, mget_mset_ne _ _ (Ne.symm hne), hb1]
        exact mget_mset_self _ _ _
      · show mget b2 toA = mget s.balances toA + amount
        rw [hb2, mget_mset_self, hb1, mget_mset_ne _ _ hne]
        exact uadd_eq_add hmod
    · intro heq
      subst heq
      show mget b2 frm = mget s.balances frm
      rw [hb2, mget_mset_self, hb1, mget_mset_self, uadd, Nat.sub_add_cancel hb]
      exact Nat.mod_eq_of_lt
        (lt_of_le_of_lt (le_trans (Nat.le_add_right _ _) hof) umax_lt_umod)

theorem hostCall_error_frame (s : Erc20State) (r : Except Erc20Errors (Erc20State × Bool))
    (e : Erc20Errors) (h : (hostCall s r).2 = .error e) : (hostCall s r).1 = s := by
  cases r with
  | error e' => rfl
  | ok p =>
      obtain ⟨s1, b⟩ := p
      simp [hostCall] at h

/-- Successful `_transfer_from` preserves the total supply. -/
theorem transfer_from_ok_total_supply {env : Env} {s : Erc20State} {frm toA amount : Nat}
    {s2 : Erc20State} {b : Bool}
    (h : _transfer_from env s frm toA amount = .ok (s2, b)) :
    s2.total_supply = s.total_supply := by
  unfold _transfer_from at h
  by_cases ha : _allowance s frm env.sender < amount
  · simp [ha] at h
  · simp only [ha, if_false] at h
    cases hm : move_tokens
        (set_approval s frm env.sender (_allowance s frm env.sender - amount))
        frm toA amount with
    | error e => rw [hm] at h; cases h
    | ok s' =>
        rw [hm] at h
        cases h
        exact (move_tokens_total_supply hm).trans rfl

theorem transfer_total_supply (env : Env) (s : Erc20State) (toA amount : Nat) :
    (transfer env s toA amount).1.total_supply = s.total_supply := by
  simp only [transfer, hostCall, _transfer]
  cases hm : move_tokens s env.sender toA amount with
  | error e => rfl
  | ok s1 => exact move_tokens_total_supply hm

theorem transfer_from_total_supply (env : Env) (s : Erc20State) (frm toA amount : Nat) :
    (transfer_from env s frm toA amount).1.total_supply = s.total_supply := by
  simp only [transfer_from, hostCall]
  cases ht : _transfer_from env s frm toA amount with
  | error e => rfl
  | ok p =>
      obtain ⟨s2, b⟩ := p
      exact transfer_from_ok_total_supply ht

theorem permit_total_supply (env : Env) (sig : SigEnv) (s : Erc20State)
    (owner spender value deadline v r sv : Nat) :
    (permit env sig s owner spender value deadline v r sv).1.total_supply
      = s.total_supply := by
  simp only [permit]
  cases hp : _permit env sig s owner spender value deadline v r sv with
  | error e => rfl
  | ok s1 =>
      obtain ⟨hs1, -⟩ := permit_ok_shape hp
      subst hs1
      rfl

theorem transfer_with_permit_total_supply (env : Env) (sig : SigEnv) (s : Erc20State)
    (toA amount owner spender value deadline v r sv : Nat) :
    (transfer_with_permit env sig s toA amount owner spender value deadline v r sv).1.total_supply
      = s.total_supply := by
  cases hp : _permit env sig s owner spender value deadline v r sv with
  | error e => simp [transfer_with_permit, hostCall, _transfer_with_permit, hp]
  | ok s1 =>
      obtain ⟨hs1, -⟩ := permit_ok_shape hp
      simp only [transfer_with_permit, hostCall, _transfer_with_permit, hp]
      cases ht : _transfer_from env s1 owner toA amount with
      | error e => rfl
      | ok p =>
          obtain ⟨s2, b⟩ := p
          show s2.total_supply = s.total_supply
          exact (transfer_from_ok_total_supply ht).trans (by rw [hs1]; rfl)

/-- C5: every outward mutating operation that returns an error leaves the
observable state exactly as before the call — including `transferFrom` and
`transferWithPermit` failing at the balance check after the allowance was
already reduced, which the host's all-or-nothing call semantics rolls back. -/
theorem c5_errors_leave_state_unchanged (env : Env) (sig : SigEnv) (s : Erc20State)
    (toA amount frm spender owner value deadline v r sv : Nat) :
    (∀ e, (transfer env s toA amount).2 = .error e → (transfer env s toA amount).1 = s) ∧
    (∀ e, (approve env s spender amount).2 = .error e → (approve env s spender amount).1 = s) ∧
    (∀ e, (transfer_from env s frm toA amount).2 = .error e →
      (transfer_from env s frm toA amount).1 = s) ∧
    (∀ e, (permit env sig s owner spender value deadline v r sv).2 = .error e →
      (permit env sig s owner spender value deadline v r sv).1 = s) ∧
    (∀ e, (transfer_with_permit env sig s toA amount owner spender value deadline v r sv).2
        = .error e →
      (transfer_with_permit env sig s toA amount owner spender value deadline v r sv).1 = s) := by
  refine ⟨fun e h => hostCall_error_frame _ _ e h,
    fun e h => hostCall_error_frame _ _ e h,
    fun e h => hostCall_error_frame _ _ e h, ?_,
    fun e h => hostCall_error_frame _ _ e h⟩
  intro e h
  simp only [permit] at h ⊢
  cases hp : _permit env sig s owner spender value deadline v r sv with
  | error e' => rfl
  | ok s1 =>
      rw [hp] at h
      simp at h

/-- C5 witness: with `allowance(1, 2) = 50` and `balance(1) = 0`, the
failing `transferFrom(1, 3, 40)` by account 2 errors after having reduced
the allowance in storage, and the observable state is still the pre-call
state. -/
theorem c5_errors_leave_state_unchanged_witness :
    (transfer_from ⟨2, 0⟩ (set_approval initState 1 2 50) 1 3 40).1
      = set_approval initState 1 2 50 :=
  (c5_errors_leave_state_unchanged ⟨2, 0⟩ ⟨fun _ => 0, fun _ _ _ _ => none⟩
    (set_approval initState 1 2 50) 3 40 1 2 0 0 0 0 0 0).2.2.1
    .InsufficientBalance rfl

/-- C10: transfer, approve, transferFrom, permit and transferWithPermit never
write the `total_supply` slot; its value after any such call (successful or
not) equals its value before. -/
theorem c10_only_mint_and_burn_write_total_supply (env : Env) (sig : SigEnv)
    (s : Erc20State) (toA amount frm spender owner value deadline v r sv : Nat) :
    (transfer env s toA amount).1.total_supply = s.total_supply ∧
    (approve env s spender amount).1.total_supply = s.total_supply ∧
    (transfer_from env s frm toA amount).1.total_supply = s.total_supply ∧
    (permit env sig s owner spender value deadline v r sv).1.total_supply = s.total_supply ∧
    (transfer_with_permit env sig s toA amount owner spender value deadline v r sv).1.total_supply
      = s.total_supply :=
  ⟨transfer_total_supply env s toA amount, rfl,
    transfer_from_total_supply env s frm toA amount,
    permit_total_supply env sig s owner spender value deadline v r sv,
    transfer_with_permit_total_supply env sig s toA amount owner spender value deadline v r sv⟩

/-- C4 amended witness: with `allowance(1, 2) = 50` and `balance(1) = 0`,
account 2 calling `transferFrom(1, 3, 60)` fails with
`InsufficientAllowance` and the state is unchanged. -/
theorem c4_transfer_from_amended_witness :
    transfer_from ⟨2, 0⟩ (set_approval initState 1 2 50) 1 3 60
      = (set_approval initState 1 2 50, .error .InsufficientAllowance) :=
  (c4_transfer_from_amended ⟨2, 0⟩ (set_approval initState 1 2 50) 1 3 60
    (by decide)).1 (by decide)

/-- C6: `permit` fails with `PermitExpired` exactly when the owner is nonzero
(the zero-owner check runs first, regardless of signature validity) and the
current timestamp strictly exceeds the deadline; it fails with
`InvalidPermit` exactly when the owner is the zero address, or the call is
unexpired and recovery does not return exactly the claimed owner (covering
both recovery failure and a wrong recovered signer). A deadline equal to
the timestamp passes the expiry check; a deadline one second in the past
fails it. -/
theorem c6_permit_error_conditions (env : Env) (sig : SigEnv) (s : Erc20State)
    (owner spender value deadline v r sv : Nat) :
    ((permit env sig s owner spender value deadline v r sv).2 = .error .PermitExpired ↔
      owner ≠ 0 ∧ deadline < env.timestamp) ∧
    ((permit env sig s owner spender value deadline v r sv).2 = .error .InvalidPermit ↔
      owner = 0 ∨ (env.timestamp ≤ deadline ∧
        sig.recover (sig.sigHash
          { owner := owner, spender := spender, value := value,
            nonce := mget s.nonces owner, deadline := deadline }) v r sv ≠ some owner)) := by
  simp only [permit, _permit]
  by_cases h0 : owner = 0
  · simp [h0]
  · by_cases hd : env.timestamp > deadline
    · have hnle : ¬ env.timestamp ≤ deadline := not_le.mpr hd
      simp [h0, hd, hnle]
    · have hle : env.timestamp ≤ deadline := not_lt.mp hd
      cases hrec : sig.recover (sig.sigHash
          { owner := owner, spender := spender, value := value,
            nonce := mget s.nonces owner, deadline := deadline }) v r sv with
      | none => simp [h0, hd, hle]
      | some a =>
          by_cases ha : a = owner
          · simp [h0, hd, hle, ha]
          · simp [h0, hd, hle, ha]

/-- C7 counterexample: starting from a state whose nonce for account 1 is
`U256::MAX`, a successful permit call leaves the nonce at 0 (wrapping
increment), not at `U256MAX + 1`: the nonce does not "increase by exactly
1" at the 256-bit ceiling. -/
theorem c7_counterexample_nonce_wraps :
    mget ({ initState with nonces := [(1, U256MAX)] } : Erc20State).nonces 1 = U256MAX ∧
    (permit ⟨5, 0⟩ ⟨fun _ => 0, fun _ _ _ _ => some 1⟩
      { initState with nonces := [(1, U256MAX)] } 1 2 7 5 0 0 0).2 = .ok () ∧
    mget (permit ⟨5, 0⟩ ⟨fun _ => 0, fun _ _ _ _ => some 1⟩
      { initState with nonces := [(1, U256MAX)] } 1 2 7 5 0 0 0).1.nonces 1 = 0 :=
  ⟨rfl, rfl, rfl⟩

/-- C7 amended: every successful permit call sets `allowance(owner, spender)`
to exactly `value`, sets the owner's nonce to the old nonce plus one modulo
`2^256` (an increase by exactly 1 whenever the old nonce is below
`U256::MAX`), changes no balance and no total supply, and the hash checked
against the signature embeds the owner's nonce as read before the
increment; on an error neither write happens (state unchanged), so the
approval write and the nonce increment occur together or not at all. -/
theorem c7_permit_success_amended (env : Env) (sig : SigEnv) (s : Erc20State)
    (owner spender value deadline v r sv : Nat) :
    ((permit env sig s owner spender value deadline v r sv).2 = .ok () →
      _allowance (permit env sig s owner spender value deadline v r sv).1 owner spender
        = value ∧
      mget (permit env sig s owner spender value deadline v r sv).1.nonces owner
        = uadd (mget s.nonces owner) 1 ∧
      (mget s.nonces owner < U256MAX →
        mget (permit env sig s owner spender value deadline v r sv).1.nonces owner
          = mget s.nonces owner + 1) ∧
      (permit env sig s owner spender value deadline v r sv).1.balances = s.balances ∧
      (permit env sig s owner spender value deadline v r sv).1.total_supply
        = s.total_supply ∧
      sig.recover (sig.sigHash
        { owner := owner, spender := spender, value := value,
          nonce := mget s.nonces owner, deadline := deadline }) v r sv = some owner) ∧
    (∀ e, (permit env sig s owner spender value deadline v r sv).2 = .error e →
      (permit env sig s owner spender value deadline v r sv).1 = s) := by
  constructor
  · intro hok
    cases hp : _permit env sig s owner spender value deadline v r sv with
    | error e => simp [permit, hp] at hok
    | ok s1 =>
        obtain ⟨hs1, hrec⟩ := permit_ok_shape hp
        have h1 : (permit env sig s owner spender value deadline v r sv).1 = s1 := by
          simp [permit, hp]
        rw [h1, hs1]
        refine ⟨m2get_m2set_self _ _ _ _, ?_, ?_, rfl, rfl, hrec⟩
        · show mget (mset s.nonces owner (uadd (mget s.nonces owner) 1)) owner
            = uadd (mget s.nonces owner) 1
          exact mget_mset_self _ _ _
        · intro hlt
          show mget (mset s.nonces owner (uadd (mget s.nonces owner) 1)) owner
            = mget s.nonces owner + 1
          rw [mget_mset_self]
          exact uadd_eq_add (lt_of_le_of_lt (Nat.succ_le_of_lt hlt) umax_lt_umod)
  · intro e h
    simp only [permit] at h ⊢
    cases hp : _permit env sig s owner spender value deadline v r sv with
    | error e' => rfl
    | ok s1 =>
        rw [hp] at h
        simp at h

/-- C7 amended witness: a successful concrete permit (owner 1, spender 2,
value 7, nonce 0) yields `allowance(1, 2) = 7` and nonce 1. -/
theorem c7_permit_success_amended_witness :
    (permit ⟨5, 3⟩ ⟨fun _ => 0, fun _ _ _ _ => some 1⟩ initState 1 2 7 5 27 11 12).2
      = .ok () ∧
    _allowance (permit ⟨5, 3⟩ ⟨fun _ => 0, fun _ _ _ _ => some 1⟩
      initState 1 2 7 5 27 11 12).1 1 2 = 7 ∧
    mget (permit ⟨5, 3⟩ ⟨fun _ => 0, fun _ _ _ _ => some 1⟩
      initState 1 2 7 5 27 11 12).1.nonces 1 = mget initState.nonces 1 + 1 := by
  have h := (c7_permit_success_amended ⟨5, 3⟩ ⟨fun _ => 0, fun _ _ _ _ => some 1⟩
      initState 1 2 7 5 27 11 12).1 rfl
  exact ⟨rfl, h.1, h.2.2.1 (by decide)⟩

/-- C8: `transferWithPermit` performs the full permit verification first and,
only if it succeeds, performs `transferFrom(owner, to, amount)` with `owner`
as the debited account; a permit failure or a transfer failure fails the
whole call (with the permit's writes reverted), and on success it returns
true. When the caller is the permit's spender, the transferFrom step spends
the allowance the permit just granted, whose value is exactly `value`. -/
theorem c8_transfer_with_permit_composes (env : Env) (sig : SigEnv) (s : Erc20State)
    (toA amount owner spender value deadline v r sv : Nat) :
    (∀ e, _permit env sig s owner spender value deadline v r sv = .error e →
      transfer_with_permit env sig s toA amount owner spender value deadline v r sv
        = (s, .error e)) ∧
    (∀ s1, _permit env sig s owner spender value deadline v r sv = .ok s1 →
      (env.sender = spender → _allowance s1 owner env.sender = value) ∧
      (∀ e, _transfer_from env s1 owner toA amount = .error e →
        transfer_with_permit env sig s toA amount owner spender value deadline v r sv
          = (s, .error e)) ∧
      (∀ s2 b, _transfer_from env s1 owner toA amount = .ok (s2, b) →
        transfer_with_permit env sig s toA amount owner spender value deadline v r sv
          = (s2, .ok b) ∧ b = true)) := by
  constructor
  · intro e he
    simp [transfer_with_permit, hostCall, _transfer_with_permit, he]
  · intro s1 h1
    obtain ⟨hs1, -⟩ := permit_ok_shape h1
    refine ⟨?_, ?_, ?_⟩
    · intro hsp
      subst hsp
      rw [hs1]
      exact m2get_m2set_self _ _ _ _
    · intro e he
      simp [transfer_with_permit, hostCall, _transfer_with_permit, h1, he]
    · intro s2 b hb
      constructor
      · simp [transfer_with_permit, hostCall, _transfer_with_permit, h1, hb]
      · exact transfer_from_ok_shape hb

/-- C8 witness: a concrete successful permit for spender 2 (the caller)
followed by the transferFrom step moves 40 tokens from owner 1 to account 3
and returns true. -/
theorem c8_transfer_with_permit_composes_witness :
    transfer_with_permit ⟨2, 0⟩ ⟨fun _ => 0, fun _ _ _ _ => some 1⟩ (_mint initState 1 100)
        3 40 1 2 40 9 27 11 12
      = ({ balances := [(1, 60), (3, 40)], total_supply := 100,
           allowances := [(1, [(2, 0)])], nonces := [(1, 1)] }, .ok true) ∧
    true = true :=
  ((c8_transfer_with_permit_composes ⟨2, 0⟩ ⟨fun _ => 0, fun _ _ _ _ => some 1⟩
      (_mint initState 1 100) 3 40 1 2 40 9 27 11 12).2
    { balances := [(1, 100)], total_supply := 100, allowances := [(1, [(2, 40)])],
      nonces := [(1, 1)] } rfl).2.2
    { balances := [(1, 60), (3, 40)], total_supply := 100,
      allowances := [(1, [(2, 0)])], nonces := [(1, 1)] } true rfl

end StylusPermit
